import Mathlib

/-!
Verification of the ledger orchestration core of `banca-en-linea`.

The Go source is shallowly embedded: the stub TigerBeetle engine
(`internal/tigerbeetle/interface.go`, ci/docker build) becomes pure
functions over an association-list ledger, the Postgres user repository
(`internal/db/user_repository.go`) becomes a list of user records, and the
`UserService` operations (`user_service.go`) and the HTTP handlers
(`server.go`) become functions threading an explicit state. Machine
`uint64` arithmetic is modelled as `Nat` with explicit `% 2^64`.
-/

deriving instance DecidableEq for Except

namespace Banca

/-- The modulus of Go `uint64` arithmetic. -/
def U64 : Nat := 2 ^ 64

/-- A 16-byte UUID (`github.com/google/uuid`), modelled as its byte list. -/
abbrev Uuid := List Nat

/-- Well-formedness of a UUID value: 16 bytes, each below 256. -/
def Uuid.wf (u : Uuid) : Prop := u.length = 16 ∧ ∀ b ∈ u, b < 256

/-- One iteration of the Go loop `id = (id << 8) | uint64(bytes[i])`
in `generateTigerBeetleAccountID` (the shift wraps in `uint64`). -/
def accIdStep (idAcc b : Nat) : Nat := ((idAcc <<< 8) % U64) ||| b

/-- `generateTigerBeetleAccountID` from `user_service.go`: fold the first
8 bytes of the user's UUID into a `uint64`, then
`if id <= 2 { id += 1000 }` to keep clear of the reserved master accounts. -/
def generateTigerBeetleAccountID (userID : Uuid) : Nat :=
  let idVal := (userID.take 8).foldl accIdStep 0
  if idVal ≤ 2 then idVal + 1000 else idVal

/-- Modelled from the spec's words, for the refinement comparison in C6:
"the most-significant 8 bytes of the identity as a big-endian unsigned
integer". -/
def specTop8BigEndian (u : Uuid) : Nat :=
  (u.take 8).foldl (fun a b => a * 256 + b) 0

/-- For `b` below `2^k`, bitwise-or with a multiple of `2^k` is addition. -/
theorem two_pow_mul_lor_eq_add (k : Nat) :
    ∀ a b : Nat, b < 2 ^ k → (2 ^ k * a) ||| b = 2 ^ k * a + b := by
  induction k with
  | zero =>
    intro a b hb
    interval_cases b
    simp
  | succ k ih =>
    intro a b hb
    have hb2 : b / 2 < 2 ^ k := by
      have h2 : b < 2 ^ k * 2 := by
        have : 2 ^ (k + 1) = 2 ^ k * 2 := by ring
        omega
      omega
    have hdecomp : Nat.bit (b.bodd) (b.div2) = b := Nat.bit_decomp b
    have hdiv2 : b.div2 = b / 2 := Nat.div2_val b
    have hbit : Nat.bit false (2 ^ k * a) = 2 ^ (k + 1) * a := by
      rw [Nat.bit_val]
      show 2 * (2 ^ k * a) + 0 = 2 ^ (k + 1) * a
      ring
    calc (2 ^ (k + 1) * a) ||| b
        = (Nat.bit false (2 ^ k * a)) ||| (Nat.bit b.bodd b.div2) := by
          rw [hbit, hdecomp]
      _ = Nat.bit (false || b.bodd) ((2 ^ k * a) ||| b.div2) :=
          Nat.lor_bit false (2 ^ k * a) b.bodd b.div2
      _ = Nat.bit b.bodd (2 ^ k * a + b / 2) := by
          rw [Bool.false_or, hdiv2, ih a (b / 2) hb2]
      _ = 2 * (2 ^ k * a + b / 2) + b.bodd.toNat := Nat.bit_val b.bodd (2 ^ k * a + b / 2)
      _ = 2 ^ (k + 1) * a + b := by
          have hb' : b = 2 * b.div2 + b.bodd.toNat := by
            conv_lhs => rw [← hdecomp]
            exact Nat.bit_val b.bodd b.div2
          rw [hdiv2] at hb'
          have hpow : 2 ^ (k + 1) * a = 2 * (2 ^ k * a) := by ring
          rw [hpow]
          omega

/-- On a byte below 256, the Go accumulation step is base-256 big-endian
accumulation, as long as the accumulator still fits in 56 bits. -/
theorem accIdStep_eq (a b : Nat) (ha : a < 2 ^ 56) (hb : b < 256) :
    accIdStep a b = a * 256 + b := by
  unfold accIdStep U64
  have hshift : a <<< 8 = a * 256 := by
    rw [Nat.shiftLeft_eq]
  have hlt : a * 256 < 2 ^ 64 := by omega
  rw [hshift, Nat.mod_eq_of_lt hlt]
  have h256 : (256 : Nat) = 2 ^ 8 := by norm_num
  calc a * 256 ||| b = 2 ^ 8 * a ||| b := by rw [h256, Nat.mul_comm]
    _ = 2 ^ 8 * a + b := two_pow_mul_lor_eq_add 8 a b (by omega)
    _ = a * 256 + b := by rw [h256, Nat.mul_comm]

/-- Folding the Go step over at most 8 small bytes agrees with the
big-endian fold, provided the accumulator leaves room for the bytes. -/
theorem foldl_accIdStep_eq :
    ∀ (l : List Nat) (a : Nat), (∀ b ∈ l, b < 256) → l.length ≤ 8 →
    a < 2 ^ (64 - 8 * l.length) →
    l.foldl accIdStep a = l.foldl (fun a b => a * 256 + b) a := by
  intro l
  induction l with
  | nil => intro a _ _ _; rfl
  | cons x t ih =>
    intro a hbytes hlen ha
    simp only [List.length_cons] at hlen ha
    have hx : x < 256 := hbytes x (List.mem_cons_self x t)
    have hlen' : t.length ≤ 7 := by omega
    have hkey : 2 ^ (64 - 8 * (t.length + 1)) * 256 = 2 ^ (64 - 8 * t.length) := by
      have h1 : 64 - 8 * t.length = 64 - 8 * (t.length + 1) + 8 := by omega
      rw [h1, Nat.pow_add]
    have ha56 : a < 2 ^ 56 := by
      have h1 : 64 - 8 * (t.length + 1) ≤ 56 := by omega
      exact Nat.lt_of_lt_of_le ha (Nat.pow_le_pow_right (by norm_num) h1)
    have hstep : accIdStep a x = a * 256 + x := accIdStep_eq a x ha56 hx
    have hnext : a * 256 + x < 2 ^ (64 - 8 * t.length) := by
      rw [← hkey]
      have hmul : (a + 1) * 256 ≤ 2 ^ (64 - 8 * (t.length + 1)) * 256 :=
        Nat.mul_le_mul_right 256 (Nat.succ_le_of_lt ha)
      omega
    simp only [List.foldl_cons, hstep]
    exact ih (a * 256 + x) (fun b hb => hbytes b (List.mem_cons_of_mem x hb))
      (by omega) hnext

/-- On a well-formed UUID the Go fold computes the spec's big-endian value. -/
theorem fold_take8_eq (u : Uuid) (h : Uuid.wf u) :
    (u.take 8).foldl accIdStep 0 = specTop8BigEndian u := by
  unfold specTop8BigEndian
  have h16 : u.length = 16 := h.1
  have hlen8 : (u.take 8).length = 8 := by
    rw [List.length_take]
    omega
  apply foldl_accIdStep_eq
  · intro b hb
    exact h.2 b (List.mem_of_mem_take hb)
  · rw [hlen8]
  · rw [hlen8]
    norm_num

/-! ## The stub TigerBeetle engine (`interface.go`, ci/docker build) -/

/-- An engine account (stub `Account` struct). Counters are `uint64`,
kept below `2^64` by every operation. -/
structure Account where
  id : Nat
  ledger : Nat
  code : Nat
  flags : Nat
  debitsPosted : Nat
  creditsPosted : Nat
deriving Repr, DecidableEq

/-- The engine state: the stub's `accounts map[uint64]*Account`,
as an association list keyed by account id. -/
abbrev LedgerState := List (Nat × Account)

/-- Map lookup (`s.accounts[accountID]`). -/
def findAccount : LedgerState → Nat → Option Account
  | [], _ => none
  | (k, a) :: rest, accountID =>
    if k = accountID then some a else findAccount rest accountID

/-- Map store (`s.accounts[accountID] = account`): replace the existing
binding or append a new one. -/
def setAccount : LedgerState → Nat → Account → LedgerState
  | [], accountID, account => [(accountID, account)]
  | (k, a) :: rest, accountID, account =>
    if k = accountID then (accountID, account) :: rest
    else (k, a) :: setAccount rest accountID account

/-- Master debit account created by the stub's master-account setup:
id 1, ledger 1, code `MasterDebitAccount` (1), zero counters. -/
def masterDebit : Account := ⟨1, 1, 1, 0, 0, 0⟩

/-- Master credit account created by the stub's master-account setup:
id 2, ledger 1, code `MasterCreditAccount` (2), initial credits
1000000000 (the stub's seeded balance). -/
def masterCredit : Account := ⟨2, 1, 2, 0, 0, 1000000000⟩

/-- `initializeMasterAccounts` of the stub: store accounts 1 and 2. -/
def initMasterAccounts (s : LedgerState) : LedgerState :=
  setAccount (setAccount s 1 masterDebit) 2 masterCredit

/-- The ledger state `NewService` produces: master accounts over an
empty map. -/
def newServiceLedger : LedgerState := initMasterAccounts []

/-- Stub `CreateUserAccount`: unconditionally stores a fresh account with
code `UserAccount` (100) and zero counters, and returns it. -/
def createUserAccount (s : LedgerState) (userID : Nat) : LedgerState × Account :=
  let account : Account := ⟨userID, 1, 100, 0, 0, 0⟩
  (setAccount s userID account, account)

/-- Stub `GetAccountBalance`: `(debitsPosted, creditsPosted)` of the
account, or `none` for the "account not found" error. -/
def getAccountBalance (s : LedgerState) (accountID : Nat) : Option (Nat × Nat) :=
  match findAccount s accountID with
  | none => none
  | some a => some (a.debitsPosted, a.creditsPosted)

/-- Stub `Transfer`: error when either account is missing; otherwise
`fromAccount.DebitsPosted += amount` then `toAccount.CreditsPosted += amount`
(`uint64` wrap-around), ignoring `transferID` entirely. The credit update
re-reads the stored account, so when the two ids coincide it sees the debit
update, exactly as Go's aliased pointers do. -/
def tbTransfer (s : LedgerState) (fromAccountID toAccountID amount transferID : Nat) :
    Option LedgerState :=
  match findAccount s fromAccountID, findAccount s toAccountID with
  | some fromAccount, some _ =>
    let s1 := setAccount s fromAccountID
      { fromAccount with debitsPosted := (fromAccount.debitsPosted + amount) % U64 }
    match findAccount s1 toAccountID with
    | some toAccount =>
      some (setAccount s1 toAccountID
        { toAccount with creditsPosted := (toAccount.creditsPosted + amount) % U64 })
    | none => none
  | _, _ => none

/-! ## The user directory (`internal/db/user_repository.go`) -/

/-- A row of the `users` table, restricted to the fields the orchestration
reads. `tigerBeetleAccountID` holds the 64-bit pattern of the linked ledger
account (`tigerbeetle_account_id`, nullable); `deletedAt` is whether
`deleted_at` is set (soft delete). -/
structure User where
  id : Uuid
  email : String
  tigerBeetleAccountID : Option Nat
  deletedAt : Bool
deriving Repr, DecidableEq

/-- The `users` table. -/
abbrev Repo := List User

/-- `GetByID`: `SELECT ... FROM users WHERE id = $1` — note the source
query has no `deleted_at IS NULL` filter, so soft-deleted rows are
returned. `none` models the `user not found` error. -/
def getByID (r : Repo) (userID : Uuid) : Option User :=
  r.find? (fun u => u.id == userID)

/-- `Create`: insert a fresh row (no linked account, not deleted). The
generated UUID is passed in as `newId` (the source calls `uuid.New()`). -/
def createUser (r : Repo) (newId : Uuid) (email : String) : Repo × User :=
  let u : User := ⟨newId, email, none, false⟩
  (r ++ [u], u)

/-- `Delete`: `UPDATE users SET deleted_at = NOW() WHERE id = $1 AND
deleted_at IS NULL`; the `user not found` error (`none`) when no live row
matches. -/
def deleteUser (r : Repo) (userID : Uuid) : Option Repo :=
  if (r.filter (fun u => u.id == userID && !u.deletedAt)).isEmpty then none
  else some (r.map (fun u =>
    if u.id == userID && !u.deletedAt then { u with deletedAt := true } else u))

/-- `UpdateTigerBeetleAccountID`: `UPDATE users SET tigerbeetle_account_id
= $1 WHERE id = $2 AND deleted_at IS NULL`; error (`none`) when no live
row matches. -/
def updateTBAccountID (r : Repo) (userID : Uuid) (accountID : Nat) : Option Repo :=
  if (r.filter (fun u => u.id == userID && !u.deletedAt)).isEmpty then none
  else some (r.map (fun u =>
    if u.id == userID && !u.deletedAt then { u with tigerBeetleAccountID := some accountID }
    else u))

/-! ## Combined state and the `UserService` operations (`user_service.go`) -/

/-- A transfer submission handed to the engine's `Transfer`. -/
structure TransferRec where
  transferID : Nat
  debitAccountID : Nat
  creditAccountID : Nat
  amount : Nat
deriving Repr, DecidableEq

/-- System state: the Postgres rows, the engine accounts, and the log of
every `Transfer` submission made to the engine (used to express
"no transfer was submitted"). -/
structure S where
  repo : Repo
  ledger : LedgerState
  submitted : List TransferRec
deriving Repr, DecidableEq

/-- Invoke the engine's `Transfer`, recording the submission. -/
def engineTransfer (st : S) (fromAccountID toAccountID amount transferID : Nat) : Bool × S :=
  let logged := st.submitted ++ [⟨transferID, fromAccountID, toAccountID, amount⟩]
  match tbTransfer st.ledger fromAccountID toAccountID amount transferID with
  | some l2 => (true, ⟨st.repo, l2, logged⟩)
  | none => (false, ⟨st.repo, st.ledger, logged⟩)

/-- Error kinds returned by the `UserService` operations, mirroring the
`fmt.Errorf` messages of the source. -/
inductive UErr
  | errGettingUser
  | errGettingSourceUser
  | errGettingDestUser
  | noTBAccount
  | noSourceTBAccount
  | noDestTBAccount
  | errGettingBalance
  | insufficientFunds (balance amount : Nat)
  | engineTransferFailed
  | engineCreateFailed
  | assocFailed (u : User)
deriving Repr, DecidableEq

/-- The `err.Error()` string of each error, as the HTTP layer sees it.
Only the insufficient-funds shape matters for control flow: the source
message is `insufficient funds: balance %d, requested %d`. -/
def UErr.errString : UErr → String
  | .errGettingUser => "error getting user"
  | .errGettingSourceUser => "error getting source user"
  | .errGettingDestUser => "error getting destination user"
  | .noTBAccount => "user does not have a TigerBeetle account"
  | .noSourceTBAccount => "source user does not have a TigerBeetle account"
  | .noDestTBAccount => "destination user does not have a TigerBeetle account"
  | .errGettingBalance => "error getting account balance"
  | .insufficientFunds b a =>
      "insufficient funds: balance " ++ toString b ++ ", requested " ++ toString a
  | .engineTransferFailed => "error transferring"
  | .engineCreateFailed => "error creating TigerBeetle account"
  | .assocFailed _ => "user created but TigerBeetle account association failed"

/-- Go's `uint64` subtraction `credits - debits` for values below `2^64`. -/
def u64sub (credits debits : Nat) : Nat := (credits + U64 - debits) % U64

/-- `UserService.DepositToUser`. `tid` is the freshly generated transfer
identifier (`generateTransferID()`, an external source of randomness). -/
def depositToUser (st : S) (userID : Uuid) (amount tid : Nat) : Except UErr Unit × S :=
  match getByID st.repo userID with
  | none => (.error .errGettingUser, st)
  | some user =>
    match user.tigerBeetleAccountID with
    | none => (.error .noTBAccount, st)
    | some accountID =>
      let r := engineTransfer st 2 accountID amount tid
      if r.1 then (.ok (), r.2) else (.error .engineTransferFailed, r.2)

/-- `UserService.WithdrawFromUser`: read posted totals, compute the
`uint64` balance `credits - debits`, fail with insufficient funds when
`balance < amount`, otherwise submit the withdrawal transfer
(user account → master debit account 1). -/
def withdrawFromUser (st : S) (userID : Uuid) (amount tid : Nat) : Except UErr Unit × S :=
  match getByID st.repo userID with
  | none => (.error .errGettingUser, st)
  | some user =>
    match user.tigerBeetleAccountID with
    | none => (.error .noTBAccount, st)
    | some accountID =>
      match getAccountBalance st.ledger accountID with
      | none => (.error .errGettingBalance, st)
      | some (debits, credits) =>
        let balance := u64sub credits debits
        if balance < amount then (.error (.insufficientFunds balance amount), st)
        else
          let r := engineTransfer st accountID 1 amount tid
          if r.1 then (.ok (), r.2) else (.error .engineTransferFailed, r.2)

/-- `UserService.TransferBetweenUsers`: look up both users, require both
links, check the source balance, submit source → destination. Note the
source has no same-user or same-account check. -/
def transferBetweenUsers (st : S) (fromUserID toUserID : Uuid) (amount tid : Nat) :
    Except UErr Unit × S :=
  match getByID st.repo fromUserID with
  | none => (.error .errGettingSourceUser, st)
  | some fromUser =>
    match getByID st.repo toUserID with
    | none => (.error .errGettingDestUser, st)
    | some toUser =>
      match fromUser.tigerBeetleAccountID with
      | none => (.error .noSourceTBAccount, st)
      | some fromAccountID =>
        match toUser.tigerBeetleAccountID with
        | none => (.error .noDestTBAccount, st)
        | some toAccountID =>
          match getAccountBalance st.ledger fromAccountID with
          | none => (.error .errGettingBalance, st)
          | some (debits, credits) =>
            let balance := u64sub credits debits
            if balance < amount then (.error (.insufficientFunds balance amount), st)
            else
              let r := engineTransfer st fromAccountID toAccountID amount tid
              if r.1 then (.ok (), r.2) else (.error .engineTransferFailed, r.2)

/-- `UserService.GetUserWithBalance`: balance `0` without error when the
user has no linked account or when the engine read fails; otherwise the
`uint64` difference `credits - debits`. -/
def getUserWithBalance (st : S) (userID : Uuid) : Except UErr (User × Nat) :=
  match getByID st.repo userID with
  | none => .error .errGettingUser
  | some user =>
    match user.tigerBeetleAccountID with
    | none => .ok (user, 0)
    | some accountID =>
      match getAccountBalance st.ledger accountID with
      | none => .ok (user, 0)
      | some (debits, credits) => .ok (user, u64sub credits debits)

/-- `UserService.CreateUserWithAccount`. `newId` is the UUID that
`userRepo.Create` generates. `engineCreateFails` models the outcome of the
external ledger engine's account creation (the real TigerBeetle client can
fail; the CI stub cannot): on failure the source soft-deletes the user it
just created (logging, but not propagating, a delete error) and returns
the ledger error; on success it links the derived account id into the row,
returning a partial-success error if the link write fails. -/
def createUserWithAccount (st : S) (newId : Uuid) (email : String)
    (engineCreateFails : Bool) : Except UErr User × S :=
  let p := createUser st.repo newId email
  let accountID := generateTigerBeetleAccountID p.2.id
  if engineCreateFails then
    match deleteUser p.1 p.2.id with
    | some repo2 => (.error .engineCreateFailed, ⟨repo2, st.ledger, st.submitted⟩)
    | none => (.error .engineCreateFailed, ⟨p.1, st.ledger, st.submitted⟩)
  else
    let l2 := (createUserAccount st.ledger accountID).1
    match updateTBAccountID p.1 p.2.id accountID with
    | none => (.error (.assocFailed p.2), ⟨p.1, l2, st.submitted⟩)
    | some repo2 =>
      (.ok { p.2 with tigerBeetleAccountID := some accountID }, ⟨repo2, l2, st.submitted⟩)

/-! ## The HTTP handlers (`server.go`), after JSON decoding -/

/-- The handler's response: a 400, a 500, or the success JSON. -/
inductive HResp
  | badRequest (msg : String)
  | internalError (msg : String)
  | okSuccess
deriving Repr, DecidableEq

/-- `Server.depositToUser` after a successful decode of the request. -/
def serverDepositToUser (st : S) (userID : Uuid) (amount tid : Nat) : HResp × S :=
  if amount = 0 then (.badRequest "Amount must be greater than 0", st)
  else
    match depositToUser st userID amount tid with
    | (.ok _, st2) => (.okSuccess, st2)
    | (.error _, st2) => (.internalError "Error processing deposit", st2)

/-- `Server.withdrawFromUser` after a successful decode of the request. -/
def serverWithdrawFromUser (st : S) (userID : Uuid) (amount tid : Nat) : HResp × S :=
  if amount = 0 then (.badRequest "Amount must be greater than 0", st)
  else
    match withdrawFromUser st userID amount tid with
    | (.ok _, st2) => (.okSuccess, st2)
    | (.error e, st2) =>
      if e.errString == "insufficient funds" then (.badRequest "Insufficient funds", st2)
      else (.internalError "Error processing withdrawal", st2)

/-- `Server.transferBetweenUsers` after a successful decode: rejects a
zero amount, then a transfer to the same user, then delegates. -/
def serverTransferBetweenUsers (st : S) (fromUserID toUserID : Uuid) (amount tid : Nat) :
    HResp × S :=
  if amount = 0 then (.badRequest "Amount must be greater than 0", st)
  else if fromUserID == toUserID then (.badRequest "Cannot transfer to the same user", st)
  else
    match transferBetweenUsers st fromUserID toUserID amount tid with
    | (.ok _, st2) => (.okSuccess, st2)
    | (.error e, st2) =>
      if e.errString == "insufficient funds" then (.badRequest "Insufficient funds", st2)
      else (.internalError "Error processing transfer", st2)

/-! ## Basic lemmas about the embedded maps -/

theorem findAccount_setAccount_self (s : LedgerState) (k : Nat) (a : Account) :
    findAccount (setAccount s k a) k = some a := by
  induction s with
  | nil => simp [setAccount, findAccount]
  | cons p rest ih =>
    obtain ⟨k', a'⟩ := p
    by_cases h : k' = k
    · simp [setAccount, findAccount, h]
    · simp [setAccount, findAccount, h, ih]

theorem findAccount_setAccount_ne (s : LedgerState) (k j : Nat) (a : Account)
    (h : j ≠ k) : findAccount (setAccount s k a) j = findAccount s j := by
  have h' : ¬(k = j) := fun hh => h hh.symm
  induction s with
  | nil => simp [setAccount, findAccount, h']
  | cons p rest ih =>
    obtain ⟨k', a'⟩ := p
    by_cases hk : k' = k
    · subst hk
      simp [setAccount, findAccount, h']
    · simp [setAccount, findAccount, hk, ih]

theorem mem_setAccount {s : LedgerState} {k : Nat} {a : Account} {p : Nat × Account}
    (hp : p ∈ setAccount s k a) : p = (k, a) ∨ p ∈ s := by
  induction s with
  | nil =>
    simp [setAccount] at hp
    exact Or.inl hp
  | cons q rest ih =>
    obtain ⟨k', a'⟩ := q
    by_cases h : k' = k
    · simp [setAccount, h] at hp
      rcases hp with h1 | h1
      · exact Or.inl (by simp [h1])
      · exact Or.inr (List.mem_cons_of_mem _ h1)
    · simp [setAccount, h] at hp
      rcases hp with h1 | h1
      · exact Or.inr (by simp [h1])
      · rcases ih h1 with h2 | h2
        · exact Or.inl h2
        · exact Or.inr (List.mem_cons_of_mem _ h2)

theorem findAccount_mem : ∀ {s : LedgerState} {k : Nat} {a : Account},
    findAccount s k = some a → (k, a) ∈ s := by
  intro s
  induction s with
  | nil => intro k a h; simp [findAccount] at h
  | cons p rest ih =>
    intro k a h
    obtain ⟨k', a'⟩ := p
    by_cases hk : k' = k
    · subst hk
      simp [findAccount] at h
      simp [h]
    · simp [findAccount, hk] at h
      exact List.mem_cons_of_mem _ (ih h)

theorem getByID_id {r : Repo} {i : Uuid} {u : User} (h : getByID r i = some u) :
    u.id = i := by
  have h2 := List.find?_some h
  simpa using h2

theorem getByID_mem {r : Repo} {i : Uuid} {u : User} (h : getByID r i = some u) :
    u ∈ r :=
  List.mem_of_find?_eq_some h

/-- The derivation, restated through the spec-side big-endian value. -/
theorem gen_eq (u : Uuid) (h : Uuid.wf u) :
    generateTigerBeetleAccountID u =
      if specTop8BigEndian u ≤ 2 then specTop8BigEndian u + 1000
      else specTop8BigEndian u := by
  simp only [generateTigerBeetleAccountID]
  rw [fold_take8_eq u h]

/-- Derived account identifiers always avoid the reserved range 0, 1, 2. -/
theorem gen_gt_two (u : Uuid) (h : Uuid.wf u) : 2 < generateTigerBeetleAccountID u := by
  rw [gen_eq u h]
  split <;> omega

/-! ## Claims -/

/-- C6: account-identifier derivation is deterministic and pure; the
derived value is the most-significant 8 bytes of the 128-bit identity read
as a big-endian unsigned integer, except that a fixed offset of 1000 is
added when that value is 0, 1 or 2; the result is never 0, 1 or 2. -/
theorem C6_account_id_derivation (u : Uuid) (h : Uuid.wf u) :
    (∀ v : Uuid, v = u →
      generateTigerBeetleAccountID v = generateTigerBeetleAccountID u)
    ∧ (specTop8BigEndian u ≤ 2 →
      generateTigerBeetleAccountID u = specTop8BigEndian u + 1000)
    ∧ (2 < specTop8BigEndian u →
      generateTigerBeetleAccountID u = specTop8BigEndian u)
    ∧ generateTigerBeetleAccountID u ≠ 0
    ∧ generateTigerBeetleAccountID u ≠ 1
    ∧ generateTigerBeetleAccountID u ≠ 2 := by
  have hg := gen_eq u h
  have hgt := gen_gt_two u h
  refine ⟨fun v hv => by rw [hv], ?_, ?_, by omega, by omega, by omega⟩
  · intro hle
    rw [hg, if_pos hle]
  · intro hlt
    rw [hg, if_neg (by omega)]

/-- Concrete instantiation of `C6_account_id_derivation`. -/
theorem C6_witness :
    Uuid.wf [0, 0, 0, 0, 0, 0, 0, 1, 9, 9, 9, 9, 9, 9, 9, 9] ∧
    generateTigerBeetleAccountID [0, 0, 0, 0, 0, 0, 0, 1, 9, 9, 9, 9, 9, 9, 9, 9] = 1001 := by
  have h : Uuid.wf [0, 0, 0, 0, 0, 0, 0, 1, 9, 9, 9, 9, 9, 9, 9, 9] := by
    constructor
    · rfl
    · decide
  refine ⟨h, ?_⟩
  have h2 := (C6_account_id_derivation [0, 0, 0, 0, 0, 0, 0, 1, 9, 9, 9, 9, 9, 9, 9, 9] h).2.1
  have h3 : specTop8BigEndian [0, 0, 0, 0, 0, 0, 0, 1, 9, 9, 9, 9, 9, 9, 9, 9] = 1 := by decide
  rw [h3] at h2
  have h4 := h2 (by omega)
  omega

/-- C1: when the identity's user record carries a linked ledger account
and the requested amount strictly exceeds the account's balance
(`credits_posted - debits_posted`, as `uint64`), `WithdrawFromUser`
returns the insufficient-funds error, the state is unchanged (so every
account's posted counters are unchanged), and no transfer is submitted to
the engine (the submission log is part of the unchanged state). -/
theorem C1_withdraw_insufficient_funds (st : S) (userID : Uuid) (amount tid : Nat)
    (user : User) (accountID debits credits : Nat)
    (hUser : getByID st.repo userID = some user)
    (hLink : user.tigerBeetleAccountID = some accountID)
    (hBal : getAccountBalance st.ledger accountID = some (debits, credits))
    (hInsuff : u64sub credits debits < amount) :
    withdrawFromUser st userID amount tid =
      (.error (.insufficientFunds (u64sub credits debits) amount), st) := by
  simp [withdrawFromUser, hUser, hLink, hBal, hInsuff]

/-- A small concrete system state shared by several witnesses: one user
linked to account 5000, which holds 10 posted credits. -/
def wUuid : Uuid := [1, 2, 3, 4, 5, 6, 7, 8, 9, 10, 11, 12, 13, 14, 15, 16]

def wUser : User := ⟨wUuid, "u@x", some 5000, false⟩

def wAcct : Account := ⟨5000, 1, 100, 0, 0, 10⟩

def wState : S := ⟨[wUser], setAccount newServiceLedger 5000 wAcct, []⟩

/-- Concrete instantiation of `C1_withdraw_insufficient_funds`. -/
theorem C1_witness :
    getByID wState.repo wUuid = some wUser ∧
    wUser.tigerBeetleAccountID = some 5000 ∧
    getAccountBalance wState.ledger 5000 = some (0, 10) ∧
    u64sub 10 0 < 11 ∧
    withdrawFromUser wState wUuid 11 99 =
      (.error (.insufficientFunds (u64sub 10 0) 11), wState) :=
  ⟨by decide, by decide, by decide, by decide,
    C1_withdraw_insufficient_funds wState wUuid 11 99 wUser 5000 0 10
      (by decide) (by decide) (by decide) (by decide)⟩

/-- C9: the balance operation returns 0 without error when the identity
has no linked account; returns 0 without error when the engine read of
posted totals fails; and returns `credits_posted - debits_posted`
(`uint64`) when the read succeeds. -/
theorem C9_balance_reader :
    (∀ (st : S) (userID : Uuid) (user : User),
      getByID st.repo userID = some user →
      user.tigerBeetleAccountID = none →
      getUserWithBalance st userID = .ok (user, 0))
    ∧ (∀ (st : S) (userID : Uuid) (user : User) (accountID : Nat),
      getByID st.repo userID = some user →
      user.tigerBeetleAccountID = some accountID →
      getAccountBalance st.ledger accountID = none →
      getUserWithBalance st userID = .ok (user, 0))
    ∧ (∀ (st : S) (userID : Uuid) (user : User) (accountID debits credits : Nat),
      getByID st.repo userID = some user →
      user.tigerBeetleAccountID = some accountID →
      getAccountBalance st.ledger accountID = some (debits, credits) →
      getUserWithBalance st userID = .ok (user, u64sub credits debits)) := by
  refine ⟨?_, ?_, ?_⟩
  · intro st userID user h1 h2
    simp [getUserWithBalance, h1, h2]
  · intro st userID user accountID h1 h2 h3
    simp [getUserWithBalance, h1, h2, h3]
  · intro st userID user accountID debits credits h1 h2 h3
    simp [getUserWithBalance, h1, h2, h3]

/-- State for the C9 witness: a user with no link, a user linked to a
missing account, and the funded user of `wState`. -/
def c9NoLinkUser : User := ⟨[9, 9, 9, 9, 9, 9, 9, 9, 9, 9, 9, 9, 9, 9, 9, 1], "a@x", none, false⟩

def c9DanglingUser : User := ⟨[9, 9, 9, 9, 9, 9, 9, 9, 9, 9, 9, 9, 9, 9, 9, 2], "b@x", some 7777, false⟩

def c9State : S := ⟨[c9NoLinkUser, c9DanglingUser, wUser],
  setAccount newServiceLedger 5000 wAcct, []⟩

/-- Concrete instantiation of all three cases of `C9_balance_reader`. -/
theorem C9_witness :
    (getByID c9State.repo c9NoLinkUser.id = some c9NoLinkUser ∧
      c9NoLinkUser.tigerBeetleAccountID = none ∧
      getUserWithBalance c9State c9NoLinkUser.id = .ok (c9NoLinkUser, 0)) ∧
    (getByID c9State.repo c9DanglingUser.id = some c9DanglingUser ∧
      getAccountBalance c9State.ledger 7777 = none ∧
      getUserWithBalance c9State c9DanglingUser.id = .ok (c9DanglingUser, 0)) ∧
    (getByID c9State.repo wUuid = some wUser ∧
      getAccountBalance c9State.ledger 5000 = some (0, 10) ∧
      getUserWithBalance c9State wUuid = .ok (wUser, u64sub 10 0)) :=
  ⟨⟨by decide, by decide,
      C9_balance_reader.1 c9State c9NoLinkUser.id c9NoLinkUser (by decide) (by decide)⟩,
    ⟨by decide, by decide,
      C9_balance_reader.2.1 c9State c9DanglingUser.id c9DanglingUser 7777
        (by decide) (by decide) (by decide)⟩,
    ⟨by decide, by decide,
      C9_balance_reader.2.2 c9State wUuid wUser 5000 0 10
        (by decide) (by decide) (by decide)⟩⟩

/-- C8 counterexample: the core `DepositToUser` does not reject a zero
amount — on a linked, existing account it succeeds and a zero-amount
transfer is submitted to the engine (the claim requires an invalid-amount
error before any engine call). -/
theorem C8_counterexample :
    (depositToUser wState wUuid 0 55).1 = .ok () ∧
    (depositToUser wState wUuid 0 55).2.submitted = [⟨55, 2, 5000, 0⟩] := by
  constructor
  · decide
  · decide

/-- C8 amended: the zero-amount check lives only in the HTTP handler
layer; each of the three handlers rejects `amount = 0` with the
invalid-amount response before invoking the core (state unchanged, so no
engine call is made), while the core operations themselves perform no
amount validation. -/
theorem C8_amended (st : S) (userID toUserID : Uuid) (tid : Nat) :
    serverDepositToUser st userID 0 tid =
      (.badRequest "Amount must be greater than 0", st) ∧
    serverWithdrawFromUser st userID 0 tid =
      (.badRequest "Amount must be greater than 0", st) ∧
    serverTransferBetweenUsers st userID toUserID 0 tid =
      (.badRequest "Amount must be greater than 0", st) := by
  refine ⟨rfl, rfl, rfl⟩

/-- C7 counterexample: with a zero amount, a same-user transfer is
rejected by the amount check, not with the same-account error, so the
claim's "every amount" fails at `amount = 0`. -/
theorem C7_counterexample :
    serverTransferBetweenUsers wState wUuid wUuid 0 77 =
      (.badRequest "Amount must be greater than 0", wState) ∧
    HResp.badRequest "Amount must be greater than 0" ≠
      HResp.badRequest "Cannot transfer to the same user" := by
  constructor
  · rfl
  · decide

/-- C7 amended: for every strictly positive amount, a transfer whose
source identity equals its destination identity is rejected by the HTTP
handler with the same-account error before the core (and hence the ledger
engine) is ever invoked: the state, including the submission log, is
returned unchanged. -/
theorem C7_amended (st : S) (userID : Uuid) (amount tid : Nat) (h : amount ≠ 0) :
    serverTransferBetweenUsers st userID userID amount tid =
      (.badRequest "Cannot transfer to the same user", st) := by
  simp [serverTransferBetweenUsers, h]

/-- Concrete instantiation of `C7_amended`. -/
theorem C7_witness :
    (3 : Nat) ≠ 0 ∧
    serverTransferBetweenUsers wState wUuid wUuid 3 77 =
      (.badRequest "Cannot transfer to the same user", wState) :=
  ⟨by decide, C7_amended wState wUuid 3 77 (by decide)⟩

/-- The identity used in the C5 scenario. -/
def c5Uuid : Uuid := [2, 2, 2, 2, 2, 2, 2, 2, 2, 2, 2, 2, 2, 2, 2, 2]

/-- C5: provisioning an identity in an empty directory with the
ledger-account creation step failing. The compensating delete runs and the
ledger error is returned — but the delete is a soft delete and `GetByID`
has no `deleted_at` filter, so a subsequent lookup still returns the user
record instead of not-found, contradicting the claim (and the repository's
own test `TestUserRepository_Delete`, which asserts `user not found`
after `Delete`). -/
theorem C5_rollback_lookup_still_finds :
    (createUserWithAccount ⟨[], newServiceLedger, []⟩ c5Uuid "c5@x" true).1 =
      .error .engineCreateFailed ∧
    (createUserWithAccount ⟨[], newServiceLedger, []⟩ c5Uuid "c5@x" true).2.repo =
      [⟨c5Uuid, "c5@x", none, true⟩] ∧
    getByID (createUserWithAccount ⟨[], newServiceLedger, []⟩ c5Uuid "c5@x" true).2.repo
      c5Uuid = some ⟨c5Uuid, "c5@x", none, true⟩ := by
  refine ⟨by decide, by decide, by decide⟩

/-- Ledger for the C4 scenario: the master accounts plus user account 5000. -/
def c4Ledger : LedgerState := setAccount newServiceLedger 5000 ⟨5000, 1, 100, 0, 0, 0⟩

/-- C4 counterexample: the stub engine accepts a resubmission of an
already-accepted transfer identifier (id 99) and applies the amount again
— account 5000's posted credits go 0 → 7 → 14 — instead of reporting an
already-exists outcome and leaving the counters unchanged. -/
theorem C4_counterexample :
    (findAccount ((tbTransfer c4Ledger 2 5000 7 99).getD []) 5000).map
      Account.creditsPosted = some 7 ∧
    tbTransfer ((tbTransfer c4Ledger 2 5000 7 99).getD []) 2 5000 7 99 ≠ none ∧
    (findAccount ((tbTransfer ((tbTransfer c4Ledger 2 5000 7 99).getD [])
        2 5000 7 99).getD []) 5000).map Account.creditsPosted = some 14 := by
  refine ⟨by decide, by decide, by decide⟩

/-- The stub engine's transfer, characterised on distinct existing
accounts: it always succeeds and posts the amount, regardless of the
transfer identifier. -/
theorem tbTransfer_eq (s : LedgerState) (f t a tid : Nat) (aF aT : Account)
    (hf : findAccount s f = some aF) (ht : findAccount s t = some aT) (hft : f ≠ t) :
    tbTransfer s f t a tid =
      some (setAccount
        (setAccount s f { aF with debitsPosted := (aF.debitsPosted + a) % U64 })
        t { aT with creditsPosted := (aT.creditsPosted + a) % U64 }) := by
  have h2 : findAccount
      (setAccount s f { aF with debitsPosted := (aF.debitsPosted + a) % U64 }) t =
      some aT := by
    rw [findAccount_setAccount_ne s f t _ (fun hh => hft hh.symm)]
    exact ht
  simp [tbTransfer, hf, ht, h2]

/-- C4 amended: the in-repository stub engine ignores the transfer
identifier entirely: submitting the same identifier a second time is
accepted again (no already-exists outcome) and posts the amount a second
time — the debit account's `debits_posted` and the credit account's
`credits_posted` each increase by the amount once more. Duplicate
detection exists only in the external TigerBeetle engine reached by the
non-stub client. -/
theorem C4_amended (s : LedgerState) (f t a tid : Nat) (aF aT : Account)
    (hf : findAccount s f = some aF) (ht : findAccount s t = some aT) (hft : f ≠ t) :
    ∃ s1 s2, tbTransfer s f t a tid = some s1 ∧
      tbTransfer s1 f t a tid = some s2 ∧
      (findAccount s2 f).map Account.debitsPosted =
        some (((aF.debitsPosted + a) % U64 + a) % U64) ∧
      (findAccount s2 t).map Account.creditsPosted =
        some (((aT.creditsPosted + a) % U64 + a) % U64) := by
  have htf : t ≠ f := fun hh => hft hh.symm
  have h1 := tbTransfer_eq s f t a tid aF aT hf ht hft
  set aF1 : Account := { aF with debitsPosted := (aF.debitsPosted + a) % U64 } with haF1
  set aT1 : Account := { aT with creditsPosted := (aT.creditsPosted + a) % U64 } with haT1
  set s1 : LedgerState := setAccount (setAccount s f aF1) t aT1 with hs1
  have hf1 : findAccount s1 f = some aF1 := by
    rw [hs1, findAccount_setAccount_ne _ t f _ hft, findAccount_setAccount_self]
  have ht1 : findAccount s1 t = some aT1 := by
    rw [hs1, findAccount_setAccount_self]
  have h2 := tbTransfer_eq s1 f t a tid aF1 aT1 hf1 ht1 hft
  set aF2 : Account := { aF1 with debitsPosted := (aF1.debitsPosted + a) % U64 } with haF2
  set aT2 : Account := { aT1 with creditsPosted := (aT1.creditsPosted + a) % U64 } with haT2
  set s2 : LedgerState := setAccount (setAccount s1 f aF2) t aT2 with hs2
  refine ⟨s1, s2, h1, h2, ?_, ?_⟩
  · have hf2 : findAccount s2 f = some aF2 := by
      rw [hs2, findAccount_setAccount_ne _ t f _ hft, findAccount_setAccount_self]
    rw [hf2]
    rfl
  · have ht2 : findAccount s2 t = some aT2 := by
      rw [hs2, findAccount_setAccount_self]
    rw [ht2]
    rfl

/-- Concrete instantiation of `C4_amended`. -/
theorem C4_witness :
    findAccount c4Ledger 2 = some masterCredit ∧
    findAccount c4Ledger 5000 = some ⟨5000, 1, 100, 0, 0, 0⟩ ∧
    (2 : Nat) ≠ 5000 ∧
    (∃ s1 s2, tbTransfer c4Ledger 2 5000 7 99 = some s1 ∧
      tbTransfer s1 2 5000 7 99 = some s2 ∧
      (findAccount s2 2).map Account.debitsPosted =
        some (((masterCredit.debitsPosted + 7) % U64 + 7) % U64) ∧
      (findAccount s2 5000).map Account.creditsPosted =
        some ((((0 : Nat) + 7) % U64 + 7) % U64)) :=
  ⟨by decide, by decide, by decide,
    C4_amended c4Ledger 2 5000 7 99 masterCredit ⟨5000, 1, 100, 0, 0, 0⟩
      (by decide) (by decide) (by decide)⟩

/-- Go's `uint64` subtraction computes the exact difference when the
counters are in range and debits do not exceed credits. -/
theorem u64sub_eq (credits debits : Nat) (h1 : debits ≤ credits) (h2 : credits < U64) :
    u64sub credits debits = credits - debits := by
  unfold u64sub U64 at *
  omega

/-- The user-facing balance of an engine account (0 when absent), i.e.
what `GetUserWithBalance` reports for a user linked to it. -/
def acctBalance (s : LedgerState) (k : Nat) : Nat :=
  match findAccount s k with
  | none => 0
  | some a => u64sub a.creditsPosted a.debitsPosted

/-- Well-formedness of the users table imposed by the schema's `UNIQUE`
constraint on `tigerbeetle_account_id`: rows with different primary keys
cannot share a non-null ledger link. -/
def RepoWf (r : Repo) : Prop :=
  ∀ u ∈ r, ∀ v ∈ r, u.id ≠ v.id →
    u.tigerBeetleAccountID = v.tigerBeetleAccountID → u.tigerBeetleAccountID = none

instance (r : Repo) : Decidable (RepoWf r) :=
  inferInstanceAs (Decidable (∀ u ∈ r, ∀ v ∈ r, u.id ≠ v.id →
    u.tigerBeetleAccountID = v.tigerBeetleAccountID → u.tigerBeetleAccountID = none))

/-- C2: for two distinct identities with linked accounts (distinct by the
schema's `UNIQUE` column, `RepoWf`) and an amount within the source's
balance, a successful `TransferBetweenUsers` moves exactly the amount:
the source balance drops by it, the destination balance rises by it, and
their sum is invariant. Counter-range hypotheses (`debits ≤ credits`,
credits below `2^64` with headroom for the amount) pin the operation to
the no-overflow regime of the 64-bit counters. -/
theorem C2_transfer_conservation (st : S) (A B : Uuid) (amount tid : Nat)
    (uA uB : User) (X Y : Nat) (aX aY : Account)
    (hWf : RepoWf st.repo)
    (hAB : A ≠ B)
    (hA : getByID st.repo A = some uA)
    (hB : getByID st.repo B = some uB)
    (hLA : uA.tigerBeetleAccountID = some X)
    (hLB : uB.tigerBeetleAccountID = some Y)
    (hAcX : findAccount st.ledger X = some aX)
    (hAcY : findAccount st.ledger Y = some aY)
    (hwfX : aX.debitsPosted ≤ aX.creditsPosted)
    (hcX : aX.creditsPosted < U64)
    (hwfY : aY.debitsPosted ≤ aY.creditsPosted)
    (hNoOv : aY.creditsPosted + amount < U64)
    (hSuff : amount ≤ acctBalance st.ledger X) :
    (transferBetweenUsers st A B amount tid).1 = .ok () ∧
    acctBalance (transferBetweenUsers st A B amount tid).2.ledger X =
      acctBalance st.ledger X - amount ∧
    acctBalance (transferBetweenUsers st A B amount tid).2.ledger Y =
      acctBalance st.ledger Y + amount ∧
    acctBalance (transferBetweenUsers st A B amount tid).2.ledger X +
      acctBalance (transferBetweenUsers st A B amount tid).2.ledger Y =
      acctBalance st.ledger X + acctBalance st.ledger Y := by
  have hXY : X ≠ Y := by
    intro hxy
    have hne : uA.id ≠ uB.id := by
      rw [getByID_id hA, getByID_id hB]
      exact hAB
    have heq : uA.tigerBeetleAccountID = uB.tigerBeetleAccountID := by
      rw [hLA, hLB, hxy]
    have hnone := hWf uA (getByID_mem hA) uB (getByID_mem hB) hne heq
    rw [hLA] at hnone
    exact Option.noConfusion hnone
  have hcY : aY.creditsPosted < U64 := by omega
  have hBalX : acctBalance st.ledger X = aX.creditsPosted - aX.debitsPosted := by
    simp [acctBalance, hAcX, u64sub_eq _ _ hwfX hcX]
  have hBalY : acctBalance st.ledger Y = aY.creditsPosted - aY.debitsPosted := by
    simp [acctBalance, hAcY, u64sub_eq _ _ hwfY hcY]
  have hGB : getAccountBalance st.ledger X = some (aX.debitsPosted, aX.creditsPosted) := by
    simp [getAccountBalance, hAcX]
  have hSuff' : amount ≤ aX.creditsPosted - aX.debitsPosted := by
    rw [hBalX] at hSuff
    exact hSuff
  have hNotLt : ¬(u64sub aX.creditsPosted aX.debitsPosted < amount) := by
    rw [u64sub_eq _ _ hwfX hcX]
    omega
  have hTb := tbTransfer_eq st.ledger X Y amount tid aX aY hAcX hAcY hXY
  have hRun : transferBetweenUsers st A B amount tid =
      (.ok (), ⟨st.repo,
        setAccount
          (setAccount st.ledger X { aX with debitsPosted := (aX.debitsPosted + amount) % U64 })
          Y { aY with creditsPosted := (aY.creditsPosted + amount) % U64 },
        st.submitted ++ [⟨tid, X, Y, amount⟩]⟩) := by
    simp [transferBetweenUsers, hA, hB, hLA, hLB, hGB, hNotLt, engineTransfer, hTb]
  rw [hRun]
  have hFindX : findAccount
      (setAccount
        (setAccount st.ledger X { aX with debitsPosted := (aX.debitsPosted + amount) % U64 })
        Y { aY with creditsPosted := (aY.creditsPosted + amount) % U64 }) X =
      some { aX with debitsPosted := (aX.debitsPosted + amount) % U64 } := by
    rw [findAccount_setAccount_ne _ Y X _ hXY, findAccount_setAccount_self]
  have hFindY : findAccount
      (setAccount
        (setAccount st.ledger X { aX with debitsPosted := (aX.debitsPosted + amount) % U64 })
        Y { aY with creditsPosted := (aY.creditsPosted + amount) % U64 }) Y =
      some { aY with creditsPosted := (aY.creditsPosted + amount) % U64 } := by
    rw [findAccount_setAccount_self]
  have hdXa : aX.debitsPosted + amount < U64 := by omega
  have hBX' : acctBalance
      (setAccount
        (setAccount st.ledger X { aX with debitsPosted := (aX.debitsPosted + amount) % U64 })
        Y { aY with creditsPosted := (aY.creditsPosted + amount) % U64 }) X =
      aX.creditsPosted - (aX.debitsPosted + amount) := by
    simp only [acctBalance, hFindX]
    rw [Nat.mod_eq_of_lt hdXa]
    exact u64sub_eq _ _ (by omega) hcX
  have hBY' : acctBalance
      (setAccount
        (setAccount st.ledger X { aX with debitsPosted := (aX.debitsPosted + amount) % U64 })
        Y { aY with creditsPosted := (aY.creditsPosted + amount) % U64 }) Y =
      (aY.creditsPosted + amount) - aY.debitsPosted := by
    simp only [acctBalance, hFindY]
    rw [Nat.mod_eq_of_lt hNoOv]
    exact u64sub_eq _ _ (by omega) hNoOv
  refine ⟨rfl, ?_, ?_, ?_⟩
  · rw [hBX', hBalX]
    omega
  · rw [hBY', hBalY]
    omega
  · rw [hBX', hBY', hBalX, hBalY]
    omega

/-- Users and accounts for the C2 witness. -/
def c2UserA : User := ⟨wUuid, "a2@x", some 5000, false⟩

def c2UserB : User := ⟨[1, 1, 1, 1, 1, 1, 1, 1, 1, 1, 1, 1, 1, 1, 1, 1], "b2@x", some 6000, false⟩

def c2AcctX : Account := ⟨5000, 1, 100, 0, 0, 10⟩

def c2AcctY : Account := ⟨6000, 1, 100, 0, 0, 0⟩

def c2State : S := ⟨[c2UserA, c2UserB],
  setAccount (setAccount newServiceLedger 5000 c2AcctX) 6000 c2AcctY, []⟩

/-- Concrete instantiation of `C2_transfer_conservation`: transferring 4
moves the balances 10,0 to 6,4. -/
theorem C2_witness :
    RepoWf c2State.repo ∧
    (transferBetweenUsers c2State wUuid c2UserB.id 4 88).1 = .ok () ∧
    acctBalance (transferBetweenUsers c2State wUuid c2UserB.id 4 88).2.ledger 5000 =
      acctBalance c2State.ledger 5000 - 4 ∧
    acctBalance (transferBetweenUsers c2State wUuid c2UserB.id 4 88).2.ledger 6000 =
      acctBalance c2State.ledger 6000 + 4 :=
  have h := C2_transfer_conservation c2State wUuid c2UserB.id 4 88 c2UserA c2UserB
    5000 6000 c2AcctX c2AcctY (by decide) (by decide) (by decide) (by decide)
    (by decide) (by decide) (by decide) (by decide) (by decide) (by decide)
    (by decide) (by decide) (by decide)
  ⟨by decide, h.1, h.2.1, h.2.2.1⟩

/-- C3: with a linked account (whose identifier is above the reserved
range, as `gen_gt_two` guarantees for every derived link) and the master
accounts present, a successful `DepositToUser` of `a > 0` followed by a
balance read yields exactly `a` more than the balance read before it, and
a successful `WithdrawFromUser` of `a` within the balance yields exactly
`a` less. Counter-range hypotheses pin the 64-bit no-overflow regime. -/
theorem C3_deposit_withdraw_exact :
    (∀ (st : S) (userID : Uuid) (amount tid bal : Nat) (user : User) (X : Nat)
      (aX m2 : Account),
      getByID st.repo userID = some user →
      user.tigerBeetleAccountID = some X →
      2 < X →
      findAccount st.ledger X = some aX →
      findAccount st.ledger 2 = some m2 →
      aX.debitsPosted ≤ aX.creditsPosted →
      aX.creditsPosted + amount < U64 →
      0 < amount →
      getUserWithBalance st userID = .ok (user, bal) →
      (depositToUser st userID amount tid).1 = .ok () ∧
      getUserWithBalance (depositToUser st userID amount tid).2 userID =
        .ok (user, bal + amount))
    ∧
    (∀ (st : S) (userID : Uuid) (amount tid bal : Nat) (user : User) (X : Nat)
      (aX m1 : Account),
      getByID st.repo userID = some user →
      user.tigerBeetleAccountID = some X →
      2 < X →
      findAccount st.ledger X = some aX →
      findAccount st.ledger 1 = some m1 →
      aX.debitsPosted ≤ aX.creditsPosted →
      aX.creditsPosted < U64 →
      getUserWithBalance st userID = .ok (user, bal) →
      amount ≤ bal →
      (withdrawFromUser st userID amount tid).1 = .ok () ∧
      getUserWithBalance (withdrawFromUser st userID amount tid).2 userID =
        .ok (user, bal - amount)) := by
  constructor
  · intro st userID amount tid bal user X aX m2 hUser hLink hXgt hAcX hM2 hwfX hNoOv
      hpos hBefore
    have hX2 : (2 : Nat) ≠ X := by omega
    have hcX : aX.creditsPosted < U64 := by omega
    have hGBX : getAccountBalance st.ledger X =
        some (aX.debitsPosted, aX.creditsPosted) := by
      simp [getAccountBalance, hAcX]
    have hRead : getUserWithBalance st userID =
        .ok (user, u64sub aX.creditsPosted aX.debitsPosted) := by
      simp [getUserWithBalance, hUser, hLink, hGBX]
    have hbal : bal = aX.creditsPosted - aX.debitsPosted := by
      rw [hRead, u64sub_eq _ _ hwfX hcX] at hBefore
      simp at hBefore
      omega
    have hTb := tbTransfer_eq st.ledger 2 X amount tid m2 aX hM2 hAcX hX2
    have hRun : depositToUser st userID amount tid =
        (.ok (), ⟨st.repo,
          setAccount
            (setAccount st.ledger 2
              { m2 with debitsPosted := (m2.debitsPosted + amount) % U64 })
            X { aX with creditsPosted := (aX.creditsPosted + amount) % U64 },
          st.submitted ++ [⟨tid, 2, X, amount⟩]⟩) := by
      simp [depositToUser, hUser, hLink, engineTransfer, hTb]
    rw [hRun]
    have hFindX : findAccount
        (setAccount
          (setAccount st.ledger 2
            { m2 with debitsPosted := (m2.debitsPosted + amount) % U64 })
          X { aX with creditsPosted := (aX.creditsPosted + amount) % U64 }) X =
        some { aX with creditsPosted := (aX.creditsPosted + amount) % U64 } := by
      rw [findAccount_setAccount_self]
    refine ⟨rfl, ?_⟩
    have hGBX' : getAccountBalance
        (setAccount
          (setAccount st.ledger 2
            { m2 with debitsPosted := (m2.debitsPosted + amount) % U64 })
          X { aX with creditsPosted := (aX.creditsPosted + amount) % U64 }) X =
        some (aX.debitsPosted, (aX.creditsPosted + amount) % U64) := by
      simp [getAccountBalance, hFindX]
    simp only [getUserWithBalance, hUser, hLink, hGBX']
    rw [Nat.mod_eq_of_lt hNoOv, u64sub_eq _ _ (by omega) hNoOv, hbal]
    have : aX.creditsPosted + amount - aX.debitsPosted =
        aX.creditsPosted - aX.debitsPosted + amount := by omega
    rw [this]
  · intro st userID amount tid bal user X aX m1 hUser hLink hXgt hAcX hM1 hwfX hcX
      hBefore hSuff
    have hX1 : X ≠ 1 := by omega
    have hGBX : getAccountBalance st.ledger X =
        some (aX.debitsPosted, aX.creditsPosted) := by
      simp [getAccountBalance, hAcX]
    have hRead : getUserWithBalance st userID =
        .ok (user, u64sub aX.creditsPosted aX.debitsPosted) := by
      simp [getUserWithBalance, hUser, hLink, hGBX]
    have hbal : bal = aX.creditsPosted - aX.debitsPosted := by
      rw [hRead, u64sub_eq _ _ hwfX hcX] at hBefore
      simp at hBefore
      omega
    have hSuff' : aX.debitsPosted + amount ≤ aX.creditsPosted := by omega
    have hNotLt : ¬(u64sub aX.creditsPosted aX.debitsPosted < amount) := by
      rw [u64sub_eq _ _ hwfX hcX]
      omega
    have hTb := tbTransfer_eq st.ledger X 1 amount tid aX m1 hAcX hM1 hX1
    have hRun : withdrawFromUser st userID amount tid =
        (.ok (), ⟨st.repo,
          setAccount
            (setAccount st.ledger X
              { aX with debitsPosted := (aX.debitsPosted + amount) % U64 })
            1 { m1 with creditsPosted := (m1.creditsPosted + amount) % U64 },
          st.submitted ++ [⟨tid, X, 1, amount⟩]⟩) := by
      simp [withdrawFromUser, hUser, hLink, hGBX, hNotLt, engineTransfer, hTb]
    rw [hRun]
    have hFindX : findAccount
        (setAccount
          (setAccount st.ledger X
            { aX with debitsPosted := (aX.debitsPosted + amount) % U64 })
          1 { m1 with creditsPosted := (m1.creditsPosted + amount) % U64 }) X =
        some { aX with debitsPosted := (aX.debitsPosted + amount) % U64 } := by
      rw [findAccount_setAccount_ne _ 1 X _ hX1, findAccount_setAccount_self]
    refine ⟨rfl, ?_⟩
    have hGBX' : getAccountBalance
        (setAccount
          (setAccount st.ledger X
            { aX with debitsPosted := (aX.debitsPosted + amount) % U64 })
          1 { m1 with creditsPosted := (m1.creditsPosted + amount) % U64 }) X =
        some ((aX.debitsPosted + amount) % U64, aX.creditsPosted) := by
      simp [getAccountBalance, hFindX]
    simp only [getUserWithBalance, hUser, hLink, hGBX']
    rw [Nat.mod_eq_of_lt (by omega : aX.debitsPosted + amount < U64),
      u64sub_eq _ _ hSuff' hcX, hbal]
    have : aX.creditsPosted - (aX.debitsPosted + amount) =
        aX.creditsPosted - aX.debitsPosted - amount := by omega
    rw [this]

/-- Concrete instantiation of both halves of `C3_deposit_withdraw_exact`:
deposit 5 takes the balance 10 to 15; withdraw 4 takes it to 6. -/
theorem C3_witness :
    (getUserWithBalance wState wUuid = .ok (wUser, 10) ∧
      (depositToUser wState wUuid 5 91).1 = .ok () ∧
      getUserWithBalance (depositToUser wState wUuid 5 91).2 wUuid =
        .ok (wUser, 10 + 5)) ∧
    (getUserWithBalance wState wUuid = .ok (wUser, 10) ∧
      (withdrawFromUser wState wUuid 4 92).1 = .ok () ∧
      getUserWithBalance (withdrawFromUser wState wUuid 4 92).2 wUuid =
        .ok (wUser, 10 - 4)) :=
  have hd := C3_deposit_withdraw_exact.1 wState wUuid 5 91 10 wUser 5000 wAcct
    masterCredit (by decide) (by decide) (by decide) (by decide) (by decide)
    (by decide) (by decide) (by decide) (by decide)
  have hw := C3_deposit_withdraw_exact.2 wState wUuid 4 92 10 wUser 5000 wAcct
    masterDebit (by decide) (by decide) (by decide) (by decide) (by decide)
    (by decide) (by decide) (by decide) (by decide)
  ⟨⟨by decide, hd.1, hd.2⟩, ⟨by decide, hw.1, hw.2⟩⟩

/-! ## The C10 operation machine -/

/-- The sequential operations named by C10. -/
inductive Op
  | createAccount (accountID : Nat)
  | deposit (userID : Uuid) (amount tid : Nat)
  | withdraw (userID : Uuid) (amount tid : Nat)
  | transfer (fromUserID toUserID : Uuid) (amount tid : Nat)
deriving Repr, DecidableEq

/-- Execute one operation for its state effect. -/
def runOp (st : S) : Op → S
  | .createAccount accountID => ⟨st.repo, (createUserAccount st.ledger accountID).1, st.submitted⟩
  | .deposit u a tid => (depositToUser st u a tid).2
  | .withdraw u a tid => (withdrawFromUser st u a tid).2
  | .transfer f t a tid => (transferBetweenUsers st f t a tid).2

/-- Execute a sequence of operations. -/
def runOps (st : S) (ops : List Op) : S := ops.foldl runOp st

/-- Side conditions of the amended C10: account creation stays out of the
reserved identifier range (as the derivation guarantees), and the
operation's amount cannot overflow any credit counter of the current
ledger. -/
def okOp (st : S) : Op → Prop
  | .createAccount accountID => 2 < accountID
  | .deposit _ a _ => ∀ p ∈ st.ledger, p.2.creditsPosted + a < U64
  | .withdraw _ a _ => ∀ p ∈ st.ledger, p.2.creditsPosted + a < U64
  | .transfer _ _ a _ => ∀ p ∈ st.ledger, p.2.creditsPosted + a < U64

instance (st : S) (op : Op) : Decidable (okOp st op) :=
  match op with
  | .createAccount accountID => inferInstanceAs (Decidable (2 < accountID))
  | .deposit _ a _ =>
    inferInstanceAs (Decidable (∀ p ∈ st.ledger, p.2.creditsPosted + a < U64))
  | .withdraw _ a _ =>
    inferInstanceAs (Decidable (∀ p ∈ st.ledger, p.2.creditsPosted + a < U64))
  | .transfer _ _ a _ =>
    inferInstanceAs (Decidable (∀ p ∈ st.ledger, p.2.creditsPosted + a < U64))

/-- The side conditions hold along the whole run. -/
def okRun (st : S) : List Op → Prop
  | [] => True
  | op :: rest => okOp st op ∧ okRun (runOp st op) rest

instance instDecOkRun : (st : S) → (ops : List Op) → Decidable (okRun st ops)
  | _, [] => .isTrue trivial
  | st, op :: rest =>
    @instDecidableAnd _ _ inferInstance (instDecOkRun (runOp st op) rest)

/-- Ledger invariant: all posted counters are in `uint64` range,
accounts with the user category code 100 keep `debits ≤ credits`, and the
bindings at the reserved keys 1 and 2 are not user accounts. -/
def LedgerInv (s : LedgerState) : Prop :=
  ∀ p ∈ s, (p.2.debitsPosted < U64 ∧ p.2.creditsPosted < U64 ∧
      (p.2.code = 100 → p.2.debitsPosted ≤ p.2.creditsPosted)) ∧
    ((p.1 = 1 ∨ p.1 = 2) → p.2.code ≠ 100)

instance (s : LedgerState) : Decidable (LedgerInv s) :=
  inferInstanceAs (Decidable (∀ p ∈ s, (p.2.debitsPosted < U64 ∧ p.2.creditsPosted < U64 ∧
      (p.2.code = 100 → p.2.debitsPosted ≤ p.2.creditsPosted)) ∧
    ((p.1 = 1 ∨ p.1 = 2) → p.2.code ≠ 100)))

theorem U64_pos : 0 < U64 := by
  unfold U64
  positivity

/-- The stub transfer on a single account (debit and credit side
coincide), characterised like `tbTransfer_eq`. -/
theorem tbTransfer_self_eq (s : LedgerState) (f a tid : Nat) (aF : Account)
    (hf : findAccount s f = some aF) :
    tbTransfer s f f a tid =
      some (setAccount
        (setAccount s f { aF with debitsPosted := (aF.debitsPosted + a) % U64 })
        f { aF with debitsPosted := (aF.debitsPosted + a) % U64,
                    creditsPosted := (aF.creditsPosted + a) % U64 }) := by
  have h1 : findAccount
      (setAccount s f { aF with debitsPosted := (aF.debitsPosted + a) % U64 }) f =
      some { aF with debitsPosted := (aF.debitsPosted + a) % U64 } :=
    findAccount_setAccount_self s f _
  simp [tbTransfer, hf, h1]

/-- Preservation of the ledger invariant by a successful stub transfer,
given credit headroom and (when the debited account is a user account)
a previously checked sufficient balance. -/
theorem tbTransfer_inv (s s' : LedgerState) (f t a tid : Nat)
    (hInv : LedgerInv s)
    (hOv : ∀ p ∈ s, p.2.creditsPosted + a < U64)
    (hSuf : ∀ acc, findAccount s f = some acc → acc.code = 100 →
      a ≤ u64sub acc.creditsPosted acc.debitsPosted)
    (hRun : tbTransfer s f t a tid = some s') :
    LedgerInv s' := by
  cases hF : findAccount s f with
  | none => simp [tbTransfer, hF] at hRun
  | some aF =>
  cases hT0 : findAccount s t with
  | none => simp [tbTransfer, hF, hT0] at hRun
  | some aT0 =>
  have hFmem := findAccount_mem hF
  have hFinv : (aF.debitsPosted < U64 ∧ aF.creditsPosted < U64 ∧
      (aF.code = 100 → aF.debitsPosted ≤ aF.creditsPosted)) ∧
      ((f = 1 ∨ f = 2) → aF.code ≠ 100) := hInv _ hFmem
  have hFov : aF.creditsPosted + a < U64 := hOv _ hFmem
  have hFcase : aF.code = 100 → aF.debitsPosted + a ≤ aF.creditsPosted := by
    intro hcode
    have hle := hFinv.1.2.2 hcode
    have hs := hSuf aF hF hcode
    rw [u64sub_eq _ _ hle hFinv.1.2.1] at hs
    omega
  by_cases htf : t = f
  · subst htf
    rw [tbTransfer_self_eq s t a tid aF hF] at hRun
    have hs' := (Option.some.inj hRun).symm
    subst hs'
    intro p hp
    rcases mem_setAccount hp with hp2 | hp2
    · subst hp2
      refine ⟨⟨?_, ?_, ?_⟩, ?_⟩
      · show (aF.debitsPosted + a) % U64 < U64
        exact Nat.mod_lt _ U64_pos
      · show (aF.creditsPosted + a) % U64 < U64
        exact Nat.mod_lt _ U64_pos
      · intro hcode
        have hcode' : aF.code = 100 := hcode
        show (aF.debitsPosted + a) % U64 ≤ (aF.creditsPosted + a) % U64
        have h1 := hFcase hcode'
        rw [Nat.mod_eq_of_lt (show aF.debitsPosted + a < U64 by omega),
          Nat.mod_eq_of_lt hFov]
        omega
      · intro hkey hcode
        exact hFinv.2 hkey hcode
    · rcases mem_setAccount hp2 with hp3 | hp3
      · subst hp3
        refine ⟨⟨?_, ?_, ?_⟩, ?_⟩
        · show (aF.debitsPosted + a) % U64 < U64
          exact Nat.mod_lt _ U64_pos
        · show aF.creditsPosted < U64
          exact hFinv.1.2.1
        · intro hcode
          have hcode' : aF.code = 100 := hcode
          show (aF.debitsPosted + a) % U64 ≤ aF.creditsPosted
          have h1 := hFcase hcode'
          rw [Nat.mod_eq_of_lt (show aF.debitsPosted + a < U64 by omega)]
          omega
        · intro hkey hcode
          exact hFinv.2 hkey hcode
      · exact hInv _ hp3
  · have hft : f ≠ t := fun h => htf h.symm
    rw [tbTransfer_eq s f t a tid aF aT0 hF hT0 hft] at hRun
    have hs' := (Option.some.inj hRun).symm
    subst hs'
    have hTmem := findAccount_mem hT0
    have hTinv : (aT0.debitsPosted < U64 ∧ aT0.creditsPosted < U64 ∧
        (aT0.code = 100 → aT0.debitsPosted ≤ aT0.creditsPosted)) ∧
        ((t = 1 ∨ t = 2) → aT0.code ≠ 100) := hInv _ hTmem
    have hTov : aT0.creditsPosted + a < U64 := hOv _ hTmem
    intro p hp
    rcases mem_setAccount hp with hp2 | hp2
    · subst hp2
      refine ⟨⟨?_, ?_, ?_⟩, ?_⟩
      · show aT0.debitsPosted < U64
        exact hTinv.1.1
      · show (aT0.creditsPosted + a) % U64 < U64
        exact Nat.mod_lt _ U64_pos
      · intro hcode
        have hcode' : aT0.code = 100 := hcode
        show aT0.debitsPosted ≤ (aT0.creditsPosted + a) % U64
        rw [Nat.mod_eq_of_lt hTov]
        have := hTinv.1.2.2 hcode'
        omega
      · intro hkey hcode
        exact hTinv.2 hkey hcode
    · rcases mem_setAccount hp2 with hp3 | hp3
      · subst hp3
        refine ⟨⟨?_, ?_, ?_⟩, ?_⟩
        · show (aF.debitsPosted + a) % U64 < U64
          exact Nat.mod_lt _ U64_pos
        · show aF.creditsPosted < U64
          exact hFinv.1.2.1
        · intro hcode
          have hcode' : aF.code = 100 := hcode
          show (aF.debitsPosted + a) % U64 ≤ aF.creditsPosted
          have h1 := hFcase hcode'
          rw [Nat.mod_eq_of_lt (show aF.debitsPosted + a < U64 by omega)]
          omega
        · intro hkey hcode
          exact hFinv.2 hkey hcode
      · exact hInv _ hp3

/-- The invariant is preserved whatever the engine call's outcome. -/
theorem engineTransfer_inv (st : S) (f t a tid : Nat)
    (hInv : LedgerInv st.ledger)
    (hOv : ∀ p ∈ st.ledger, p.2.creditsPosted + a < U64)
    (hSuf : ∀ acc, findAccount st.ledger f = some acc → acc.code = 100 →
      a ≤ u64sub acc.creditsPosted acc.debitsPosted) :
    LedgerInv (engineTransfer st f t a tid).2.ledger := by
  unfold engineTransfer
  cases hTb : tbTransfer st.ledger f t a tid with
  | none => simpa using hInv
  | some l2 => simpa using tbTransfer_inv st.ledger l2 f t a tid hInv hOv hSuf hTb

/-- A checked balance bounds the amount for whatever account the check
actually read. -/
theorem balance_check_suf {s : LedgerState} {X a debits credits : Nat}
    (hGB : getAccountBalance s X = some (debits, credits))
    (hge : ¬(u64sub credits debits < a)) :
    ∀ acc, findAccount s X = some acc → acc.code = 100 →
      a ≤ u64sub acc.creditsPosted acc.debitsPosted := by
  intro acc hacc _
  have h2 : getAccountBalance s X = some (acc.debitsPosted, acc.creditsPosted) := by
    simp [getAccountBalance, hacc]
  rw [h2] at hGB
  have h3 := Option.some.inj hGB
  have hd : acc.debitsPosted = debits := congrArg Prod.fst h3
  have hc : acc.creditsPosted = credits := congrArg Prod.snd h3
  rw [hd, hc]
  omega

/-- `DepositToUser` either leaves the state alone (lookup/link failure) or
hands the state to the engine call from master credit account 2. -/
theorem depositToUser_state (st : S) (u : Uuid) (a tid : Nat) :
    (depositToUser st u a tid).2 = st ∨
    ∃ X, (depositToUser st u a tid).2 = (engineTransfer st 2 X a tid).2 := by
  cases hU : getByID st.repo u with
  | none => exact Or.inl (by simp [depositToUser, hU])
  | some user =>
    cases hL : user.tigerBeetleAccountID with
    | none => exact Or.inl (by simp [depositToUser, hU, hL])
    | some X =>
      refine Or.inr ⟨X, ?_⟩
      by_cases hb : (engineTransfer st 2 X a tid).1 = true
      · simp [depositToUser, hU, hL, hb]
      · simp [depositToUser, hU, hL, hb]

/-- `WithdrawFromUser` either leaves the state alone or, after a passed
balance check, hands the state to the engine call towards master debit
account 1. -/
theorem withdrawFromUser_state (st : S) (u : Uuid) (a tid : Nat) :
    (withdrawFromUser st u a tid).2 = st ∨
    ∃ X debits credits, getAccountBalance st.ledger X = some (debits, credits) ∧
      ¬(u64sub credits debits < a) ∧
      (withdrawFromUser st u a tid).2 = (engineTransfer st X 1 a tid).2 := by
  cases hU : getByID st.repo u with
  | none => exact Or.inl (by simp [withdrawFromUser, hU])
  | some user =>
    cases hL : user.tigerBeetleAccountID with
    | none => exact Or.inl (by simp [withdrawFromUser, hU, hL])
    | some X =>
      cases hGB : getAccountBalance st.ledger X with
      | none => exact Or.inl (by simp [withdrawFromUser, hU, hL, hGB])
      | some pr =>
        obtain ⟨debits, credits⟩ := pr
        by_cases hlt : u64sub credits debits < a
        · exact Or.inl (by simp [withdrawFromUser, hU, hL, hGB, hlt])
        · refine Or.inr ⟨X, debits, credits, hGB, hlt, ?_⟩
          by_cases hb : (engineTransfer st X 1 a tid).1 = true
          · simp [withdrawFromUser, hU, hL, hGB, hlt, hb]
          · simp [withdrawFromUser, hU, hL, hGB, hlt, hb]

/-- `TransferBetweenUsers` either leaves the state alone or, after a
passed balance check on the source account, hands the state to the engine
call from source to destination. -/
theorem transferBetweenUsers_state (st : S) (uf ut : Uuid) (a tid : Nat) :
    (transferBetweenUsers st uf ut a tid).2 = st ∨
    ∃ X Y debits credits, getAccountBalance st.ledger X = some (debits, credits) ∧
      ¬(u64sub credits debits < a) ∧
      (transferBetweenUsers st uf ut a tid).2 = (engineTransfer st X Y a tid).2 := by
  cases hU : getByID st.repo uf with
  | none => exact Or.inl (by simp [transferBetweenUsers, hU])
  | some fromUser =>
    cases hV : getByID st.repo ut with
    | none => exact Or.inl (by simp [transferBetweenUsers, hU, hV])
    | some toUser =>
      cases hLf : fromUser.tigerBeetleAccountID with
      | none => exact Or.inl (by simp [transferBetweenUsers, hU, hV, hLf])
      | some X =>
        cases hLt : toUser.tigerBeetleAccountID with
        | none => exact Or.inl (by simp [transferBetweenUsers, hU, hV, hLf, hLt])
        | some Y =>
          cases hGB : getAccountBalance st.ledger X with
          | none => exact Or.inl (by simp [transferBetweenUsers, hU, hV, hLf, hLt, hGB])
          | some pr =>
            obtain ⟨debits, credits⟩ := pr
            by_cases hlt : u64sub credits debits < a
            · exact Or.inl (by simp [transferBetweenUsers, hU, hV, hLf, hLt, hGB, hlt])
            · refine Or.inr ⟨X, Y, debits, credits, hGB, hlt, ?_⟩
              by_cases hb : (engineTransfer st X Y a tid).1 = true
              · simp [transferBetweenUsers, hU, hV, hLf, hLt, hGB, hlt, hb]
              · simp [transferBetweenUsers, hU, hV, hLf, hLt, hGB, hlt, hb]

/-- Each operation preserves the ledger invariant under its side
condition. -/
theorem runOp_inv (st : S) (op : Op) (hInv : LedgerInv st.ledger) (hOk : okOp st op) :
    LedgerInv (runOp st op).ledger := by
  cases op with
  | createAccount accountID =>
    have h2 : 2 < accountID := hOk
    show LedgerInv (setAccount st.ledger accountID ⟨accountID, 1, 100, 0, 0, 0⟩)
    intro p hp
    rcases mem_setAccount hp with hp2 | hp2
    · subst hp2
      refine ⟨⟨U64_pos, U64_pos, fun _ => Nat.le_refl 0⟩, ?_⟩
      intro hkey hcode
      rcases hkey with h | h
      · have h' : accountID = 1 := h
        omega
      · have h' : accountID = 2 := h
        omega
    · exact hInv _ hp2
  | deposit u a tid =>
    have hOv : ∀ p ∈ st.ledger, p.2.creditsPosted + a < U64 := hOk
    show LedgerInv (depositToUser st u a tid).2.ledger
    rcases depositToUser_state st u a tid with h | ⟨X, h⟩
    · rw [h]
      exact hInv
    · rw [h]
      refine engineTransfer_inv st 2 X a tid hInv hOv ?_
      intro acc hacc hcode
      exact absurd hcode ((hInv _ (findAccount_mem hacc)).2 (Or.inr rfl))
  | withdraw u a tid =>
    have hOv : ∀ p ∈ st.ledger, p.2.creditsPosted + a < U64 := hOk
    show LedgerInv (withdrawFromUser st u a tid).2.ledger
    rcases withdrawFromUser_state st u a tid with h | ⟨X, debits, credits, hGB, hge, h⟩
    · rw [h]
      exact hInv
    · rw [h]
      exact engineTransfer_inv st X 1 a tid hInv hOv (balance_check_suf hGB hge)
  | transfer uf ut a tid =>
    have hOv : ∀ p ∈ st.ledger, p.2.creditsPosted + a < U64 := hOk
    show LedgerInv (transferBetweenUsers st uf ut a tid).2.ledger
    rcases transferBetweenUsers_state st uf ut a tid with h | ⟨X, Y, debits, credits, hGB, hge, h⟩
    · rw [h]
      exact hInv
    · rw [h]
      exact engineTransfer_inv st X Y a tid hInv hOv (balance_check_suf hGB hge)

/-- The invariant holds along every run satisfying the side conditions. -/
theorem runOps_inv : ∀ (ops : List Op) (st : S), LedgerInv st.ledger →
    okRun st ops → LedgerInv (runOps st ops).ledger
  | [], _, hInv, _ => hInv
  | op :: rest, st, hInv, hOk =>
    runOps_inv rest (runOp st op) (runOp_inv st op hInv hOk.1) hOk.2

/-- User and initial state for the C10 scenario: one identity linked to
account 5000 over the freshly initialized ledger. -/
def c10User : User := ⟨wUuid, "t@x", some 5000, false⟩

def c10S0 : S := ⟨[c10User], newServiceLedger, []⟩

/-- The offending sequence: recreate account 2 through `CreateUserAccount`
(turning the master credit account into a code-100 user account), create
account 5000, then deposit 1. -/
def c10Ops : List Op := [.createAccount 2, .createAccount 5000, .deposit wUuid 1 7]

/-- C10 counterexample: after the sequence above — sequential
`CreateUserAccount` and `DepositToUser` calls from a freshly initialized
ledger — the account stored at key 2 carries category code 100 with
`debits_posted = 1 > credits_posted = 0`, violating the claimed invariant;
the `uint64` subtraction `credits - debits` indeed wraps there. -/
theorem C10_counterexample :
    ((2 : Nat), Account.mk 2 1 100 0 1 0) ∈ (runOps c10S0 c10Ops).ledger ∧
    ¬((Account.mk 2 1 100 0 1 0).debitsPosted ≤ (Account.mk 2 1 100 0 1 0).creditsPosted) ∧
    u64sub (Account.mk 2 1 100 0 1 0).creditsPosted (Account.mk 2 1 100 0 1 0).debitsPosted =
      U64 - 1 := by
  refine ⟨by decide, by decide, by decide⟩

/-- C10 amended: from a freshly initialized ledger, after every finite
sequence of sequential `CreateUserAccount`, `DepositToUser`,
`WithdrawFromUser` and `TransferBetweenUsers` operations in which every
created account identifier lies above the reserved range (as the
derivation guarantees) and no operation's amount can overflow a credit
counter, every account with user category code 100 satisfies
`debits_posted ≤ credits_posted`, and consequently the unsigned 64-bit
subtraction `credits - debits` used by the balance computation and the
sufficiency checks does not wrap for those accounts. -/
theorem C10_amended (repo0 : Repo) (ops : List Op)
    (hOk : okRun ⟨repo0, newServiceLedger, []⟩ ops) :
    ∀ p ∈ (runOps ⟨repo0, newServiceLedger, []⟩ ops).ledger, p.2.code = 100 →
      p.2.debitsPosted ≤ p.2.creditsPosted ∧
      u64sub p.2.creditsPosted p.2.debitsPosted =
        p.2.creditsPosted - p.2.debitsPosted := by
  have hInv0 : LedgerInv newServiceLedger := by decide
  have hInv := runOps_inv ops ⟨repo0, newServiceLedger, []⟩ hInv0 hOk
  intro p hp hcode
  have h := hInv p hp
  refine ⟨h.1.2.2 hcode, ?_⟩
  exact u64sub_eq _ _ (h.1.2.2 hcode) h.1.2.1

/-- A benign sequence for the C10 witness. -/
def c10WitnessOps : List Op :=
  [.createAccount 5000, .deposit wUuid 3 11, .withdraw wUuid 1 12]

/-- Concrete instantiation of `C10_amended`. -/
theorem C10_witness :
    okRun ⟨[c10User], newServiceLedger, []⟩ c10WitnessOps ∧
    ∀ p ∈ (runOps ⟨[c10User], newServiceLedger, []⟩ c10WitnessOps).ledger,
      p.2.code = 100 →
      p.2.debitsPosted ≤ p.2.creditsPosted ∧
      u64sub p.2.creditsPosted p.2.debitsPosted =
        p.2.creditsPosted - p.2.debitsPosted :=
  ⟨by decide, C10_amended [c10User] c10WitnessOps (by decide)⟩

end Banca
